import Mathlib

/-!
Shallow embedding of the data-transform pipeline of `app.py` (the
Universal Data Analysis tool): tables, the filter/group/aggregate
pipeline, column-name canonicalization, the file-type dispatch of the
ingest step, and the persist/retrieve store contract.

Cells are `Option Value` (with `none` standing for a null / NaN entry);
numeric values are rationals. An undefined numeric bound (the NaN that
`float(df[c].min())` produces on an all-null column) is modelled as
`none`, and every comparison against it is false, as with IEEE NaN.
-/

namespace UniversalDesktop

/-- A scalar cell value of a table: numeric, text or boolean. -/
inductive Value where
  | num (q : ℚ)
  | text (s : String)
  | boolean (b : Bool)
deriving DecidableEq

/-- A table cell; `none` models a null / NaN entry. -/
abbrev Cell := Option Value

/-- A table: named columns with a numeric-dtype flag per column
(`pd.api.types.is_numeric_dtype`), rows stored row-major. -/
structure Table where
  colNames : List String
  colNumeric : List Bool
  rows : List (List Cell)
deriving DecidableEq

/-- Index of a named column (`df[c]` resolution). -/
def colIdx (t : Table) (c : String) : Nat :=
  t.colNames.indexOf c

/-- The cell of a row at a column index; out-of-range reads are null. -/
def cellAt (r : List Cell) (i : Nat) : Cell :=
  r.getD i none

/-- The column `df[c]` as the list of its cells. -/
def getCol (t : Table) (c : String) : List Cell :=
  t.rows.map (fun r => cellAt r (colIdx t c))

/-- `len(df)`. -/
def Table.rowCount (t : Table) : Nat :=
  t.rows.length

/-- `pd.api.types.is_numeric_dtype(df[c])` (app.py line 67 / 83). -/
def isNumericDtype (t : Table) (c : String) : Bool :=
  t.colNumeric.getD (colIdx t c) false

/-- Numeric view of a cell: `some q` for a numeric value, `none` for
null or non-numeric. -/
def toNum : Cell → Option ℚ
  | some (Value.num q) => some q
  | _ => none

/-- The numeric values present in a list of cells (nulls skipped, as
pandas reductions do with `skipna=True`). -/
def numsOf (cells : List Cell) : List ℚ :=
  cells.filterMap toNum

/-- Minimum of a list of rationals; `none` on the empty list (the NaN
that `df[c].min()` yields on an all-null column). -/
def minQ : List ℚ → Option ℚ
  | [] => none
  | q :: qs =>
    match minQ qs with
    | none => some q
    | some m => some (min q m)

/-- Maximum of a list of rationals; `none` on the empty list. -/
def maxQ : List ℚ → Option ℚ
  | [] => none
  | q :: qs =>
    match maxQ qs with
    | none => some q
    | some m => some (max q m)

/-- `float(df[c].min())` (app.py line 68): the observed minimum of the
filter column, undefined (NaN, modelled `none`) when no numeric value
is present. -/
def colMin (t : Table) (c : String) : Option ℚ :=
  minQ (numsOf (getCol t c))

/-- `float(df[c].max())` (app.py line 68). -/
def colMax (t : Table) (c : String) : Option ℚ :=
  maxQ (numsOf (getCol t c))

/-- `df[c].between(min_val, max_val)` for one cell (app.py line 69):
inclusive on both ends; any comparison involving a null cell or a NaN
bound is false. -/
def between (cell : Cell) (lo hi : Option ℚ) : Bool :=
  match lo, hi, toNum cell with
  | some l, some h, some v => decide (l ≤ v) && decide (v ≤ h)
  | _, _, _ => false

/-- Deduplication keeping first occurrences, with the values already
seen as accumulator. -/
def distinctAux (seen : List Value) : List Value → List Value
  | [] => []
  | v :: vs =>
    if seen.contains v then distinctAux seen vs
    else v :: distinctAux (v :: seen) vs

/-- `df[c].dropna().unique()` (app.py line 71): the distinct non-null
values of a column in first-seen order. -/
def distinctFirstSeen (l : List Value) : List Value :=
  distinctAux [] l

/-- The selectable values of a non-numeric filter column. -/
def uniqueVals (t : Table) (c : String) : List Value :=
  distinctFirstSeen ((getCol t c).filterMap id)

/-- A filter spec: one column plus either an inclusive numeric range
(app.py lines 67-69) or a set of permitted values (lines 70-73). -/
inductive FilterSpec where
  | range (col : String) (lo hi : Option ℚ)
  | cat (col : String) (vals : List Value)
deriving DecidableEq

/-- The row mask of a filter: `between` on the numeric path, `isin` on
the categorical path (a null cell is never a member). -/
def rowPasses (t : Table) (fs : FilterSpec) (r : List Cell) : Bool :=
  match fs with
  | FilterSpec.range c lo hi => between (cellAt r (colIdx t c)) lo hi
  | FilterSpec.cat c vals =>
    match cellAt r (colIdx t c) with
    | some v => vals.contains v
    | none => false

/-- `filtered_df = df[mask]` (app.py lines 69 / 73). -/
def applyFilter (t : Table) (fs : FilterSpec) : Table :=
  { t with rows := t.rows.filter (rowPasses t fs) }

/-- The fixed set of aggregation functions (app.py line 81). -/
inductive AggFunc where
  | sum | mean | count | max | min
deriving DecidableEq

/-- Sum of a list of rationals. -/
def sumQ (l : List ℚ) : ℚ :=
  l.foldr (· + ·) 0

/-- One pandas group reduction over the cells of a group: `count`
counts non-null entries; `sum`/`mean`/`max`/`min` reduce the numeric
values skipping nulls (`sum` of an all-null group is 0, the others are
NaN, modelled `none`). -/
def aggregate (cells : List Cell) (f : AggFunc) : Cell :=
  match f with
  | AggFunc.sum => some (Value.num (sumQ (numsOf cells)))
  | AggFunc.mean =>
    match numsOf cells with
    | [] => none
    | vs => some (Value.num (sumQ vs / (vs.length : ℚ)))
  | AggFunc.count => some (Value.num ((cells.filterMap id).length))
  | AggFunc.max => (maxQ (numsOf cells)).map Value.num
  | AggFunc.min => (minQ (numsOf cells)).map Value.num

/-- The group keys of `df.groupby(g)`: the distinct non-null values of
the group-by column (pandas drops null keys by default). -/
def groupKeys (t : Table) (g : String) : List Value :=
  distinctFirstSeen ((getCol t g).filterMap id)

/-- The cells of the aggregate column belonging to one group key. -/
def groupCells (t : Table) (g a : String) (k : Value) : List Cell :=
  (t.rows.filter (fun r => cellAt r (colIdx t g) == some k)).map
    (fun r => cellAt r (colIdx t a))

/-- `df.groupby(g)[a].agg(f).reset_index()` (app.py line 84): one row
per distinct non-null group key, columns `[g, a]`. -/
def groupbyAgg (t : Table) (g a : String) (f : AggFunc) : Table :=
  { colNames := [g, a]
  , colNumeric := [isNumericDtype t g, true]
  , rows := (groupKeys t g).map (fun k => [some k, aggregate (groupCells t g a k) f]) }

/-- An aggregate spec: group-by column, target column, function. -/
structure AggSpec where
  groupCol : String
  aggCol : String
  fn : AggFunc
deriving DecidableEq

/-- The filter-aggregate pipeline (app.py lines 67-85): the filtered
table, and the grouped table only when the aggregate target column has
numeric dtype (line 83), otherwise no grouped output. -/
def pipeline (t : Table) (fs : FilterSpec) (asp : Option AggSpec) :
    Table × Option Table :=
  let filtered := applyFilter t fs
  match asp with
  | some a =>
    if isNumericDtype t a.aggCol then
      (filtered, some (groupbyAgg filtered a.groupCol a.aggCol a.fn))
    else (filtered, none)
  | none => (filtered, none)

/-- The numeric column names (`df.select_dtypes(include=[...])`,
app.py line 100). -/
def numericCols (t : Table) : List String :=
  (t.colNames.zip t.colNumeric).filterMap
    (fun p => if p.2 then some p.1 else none)

/-- What the presentation stage feeds its widgets (app.py lines 75,
103, 109): the filtered table, the histogram's input column taken from
the retrieved table `df`, and the correlation input `df[numeric_cols]`
also taken from `df`. -/
structure Presentation where
  filtered : Table
  histogramInput : List Cell
  corrInput : List (String × List Cell)
deriving DecidableEq

/-- One presentation pass for a retrieved table, an active filter spec
and a chosen histogram column. -/
def present (t : Table) (fs : FilterSpec) (histCol : String) : Presentation :=
  { filtered := applyFilter t fs
  , histogramInput := getCol t histCol
  , corrInput := (numericCols t).map (fun c => (c, getCol t c)) }

/-- The four format readers behind the ingest dispatch (app.py
lines 20-27). -/
inductive Reader where
  | spreadsheet
  | structuredRecord
  | columnarBinary
  | delimitedText
deriving DecidableEq

/-- Python `name.split('.')` on a list of characters. -/
def splitDot : List Char → List (List Char)
  | [] => [[]]
  | c :: cs =>
    let r := splitDot cs
    if c = '.' then [] :: r
    else
      match r with
      | [] => [[c]]
      | h :: t => (c :: h) :: t

/-- `uploaded_file.name.split('.')[-1]` (app.py line 19). -/
def fileTypeOf (fileName : String) : String :=
  String.mk ((splitDot fileName.data).getLastD [])

/-- The extension dispatch of app.py lines 20-27: `xlsx`/`xls` to the
spreadsheet reader, `json` to the structured-record reader, `parquet`
to the columnar-binary reader, and the final `else` branch to the
delimited-text reader. -/
def dispatch (fileType : String) : Reader :=
  if fileType = "xlsx" ∨ fileType = "xls" then Reader.spreadsheet
  else if fileType = "json" then Reader.structuredRecord
  else if fileType = "parquet" then Reader.columnarBinary
  else Reader.delimitedText

/-- An error raised by an underlying format reader. -/
structure FormatError where
  message : String
deriving DecidableEq

/-- A raw uploaded byte stream. -/
abbrev ByteStream := List Nat

/-- Python `str.strip` on a list of characters: drop leading and
trailing whitespace. -/
def stripChars (l : List Char) : List Char :=
  (((l.dropWhile Char.isWhitespace).reverse.dropWhile Char.isWhitespace).reverse)

/-- Python `str.replace(" ", "_")` on one character. -/
def replaceSpace (c : Char) : Char :=
  if c = ' ' then '_' else c

/-- `.str.strip().str.lower().str.replace(" ", "_")` on a list of
characters (app.py line 29). -/
def canonChars (l : List Char) : List Char :=
  ((stripChars l).map Char.toLower).map replaceSpace

/-- Column-name canonicalization (app.py line 29). -/
def canonicalize (s : String) : String :=
  String.mk (canonChars s.data)

/-- Canonicalize all column names of a table (app.py line 29). -/
def canonTable (t : Table) : Table :=
  { t with colNames := t.colNames.map canonicalize }

/-- The ingest stage (app.py lines 18-29), parameterized by the
external readers: pick a reader from the declared extension, let its
error propagate unchanged, and canonicalize column names on success. -/
def ingest (readers : Reader → ByteStream → Except FormatError Table)
    (fileName : String) (bytes : ByteStream) : Except FormatError Table :=
  match readers (dispatch (fileTypeOf fileName)) bytes with
  | Except.error e => Except.error e
  | Except.ok df => Except.ok (canonTable df)

/-- The store contract of the embedded relational engine: named
relations, addressed by name. -/
abbrev Store := List (String × Table)

/-- `df.to_sql(table_name, conn, if_exists="replace", index=False)`
(app.py line 38): replace any relation of the same name wholesale. -/
def toSql (s : Store) (tableName : String) (df : Table) : Store :=
  (tableName, df) :: s.filter (fun p => !(p.1 == tableName))

/-- `pd.read_sql("SELECT * FROM name", conn)` (app.py line 52): full
scan of the named relation. -/
def readSql (s : Store) (tableName : String) : Option Table :=
  (s.find? (fun p => p.1 == tableName)).map (fun p => p.2)

/-- A table with the group-by rows of the null-key-row removed: used to
state that rows whose group-by value is null contribute nothing to the
grouped output. -/
def dropNullKeyRows (t : Table) (g : String) : Table :=
  { t with rows := t.rows.filter (fun r => (cellAt r (colIdx t g)).isSome) }

/-- The spec's aggregate-correctness example table:
rows `[(g="a",v=1),(g="a",v=3),(g="b",v=5)]`. -/
def aggExample : Table :=
  { colNames := ["g", "v"]
  , colNumeric := [false, true]
  , rows := [ [some (Value.text "a"), some (Value.num 1)]
            , [some (Value.text "a"), some (Value.num 3)]
            , [some (Value.text "b"), some (Value.num 5)] ] }

/-- A table whose group-by column contains a null entry. -/
def nullKeyTable : Table :=
  { colNames := ["g", "v"]
  , colNumeric := [false, true]
  , rows := [ [none, some (Value.num 1)]
            , [some (Value.text "a"), some (Value.num 2)] ] }

/-- A numeric column containing one null cell. -/
def nullValTable : Table :=
  { colNames := ["v"]
  , colNumeric := [true]
  , rows := [ [some (Value.num 1)], [none] ] }

/-- A numeric column with no null cells. -/
def noNullTable : Table :=
  { colNames := ["v"]
  , colNumeric := [true]
  , rows := [ [some (Value.num 2)], [some (Value.num 7)] ] }

/-- A numeric column that is entirely null. -/
def allNullTable : Table :=
  { colNames := ["v"]
  , colNumeric := [true]
  , rows := [ [none], [none] ] }

/-- A one-column table whose only column is non-numeric. -/
def textTable : Table :=
  { colNames := ["g"]
  , colNumeric := [false]
  , rows := [ [some (Value.text "x")] ] }

/-- The empty table. -/
def emptyTable : Table :=
  { colNames := [], colNumeric := [], rows := [] }

/-!
Helper lemmas.
-/

theorem toNat_ofNat_valid {n : Nat} (h : n.isValidChar) : (Char.ofNat n).toNat = n := by
  simp [Char.ofNat, dif_pos h, Char.ofNatAux, Char.toNat, UInt32.toNat, BitVec.toNat_ofNatLt]

theorem isWhitespace_eq_false_of_big {d : Char} (h : 33 ≤ d.toNat) :
    d.isWhitespace = false := by
  have hne : ∀ e : Char, e.toNat ≤ 32 → d ≠ e := by
    intro e he hEq
    rw [hEq] at h
    omega
  simp only [Char.isWhitespace, Bool.or_eq_false_iff, decide_eq_false_iff_not]
  exact ⟨⟨⟨hne ' ' (by decide), hne '\t' (by decide)⟩, hne '\r' (by decide)⟩,
    hne '\n' (by decide)⟩

theorem toNat_toLower_of_upper {c : Char} (h : 65 ≤ c.toNat ∧ c.toNat ≤ 90) :
    (Char.toLower c).toNat = c.toNat + 32 := by
  unfold Char.toLower
  rw [if_pos h]
  exact toNat_ofNat_valid (Or.inl (by omega))

theorem toLower_of_not_upper {c : Char} (h : ¬(65 ≤ c.toNat ∧ c.toNat ≤ 90)) :
    Char.toLower c = c := by
  unfold Char.toLower
  rw [if_neg h]

/-- The per-character action of canonicalization after stripping:
lower-case, then space-to-underscore. -/
def canonChar (c : Char) : Char :=
  replaceSpace (Char.toLower c)

theorem canonChar_idem (c : Char) : canonChar (canonChar c) = canonChar c := by
  by_cases hup : 65 ≤ c.toNat ∧ c.toNat ≤ 90
  · have hlow := toNat_toLower_of_upper hup
    have hne : Char.toLower c ≠ ' ' := by
      intro hEq
      rw [hEq] at hlow
      have h32 : (' ' : Char).toNat = 32 := by decide
      omega
    have h1 : canonChar c = Char.toLower c := by
      simp [canonChar, replaceSpace, hne]
    rw [h1]
    have h2 : Char.toLower (Char.toLower c) = Char.toLower c := by
      rw [toLower_of_not_upper (by omega)]
    simp [canonChar, h2, replaceSpace, hne]
  · have h2 : Char.toLower c = c := toLower_of_not_upper hup
    by_cases hsp : c = ' '
    · subst hsp
      decide
    · have h1 : canonChar c = c := by
        simp [canonChar, h2, replaceSpace, hsp]
      rw [h1, h1]

theorem canonChar_not_ws {c : Char} (h : c.isWhitespace = false) :
    (canonChar c).isWhitespace = false := by
  by_cases hup : 65 ≤ c.toNat ∧ c.toNat ≤ 90
  · have hlow := toNat_toLower_of_upper hup
    have hne : Char.toLower c ≠ ' ' := by
      intro hEq
      rw [hEq] at hlow
      have h32 : (' ' : Char).toNat = 32 := by decide
      omega
    have h1 : canonChar c = Char.toLower c := by
      simp [canonChar, replaceSpace, hne]
    rw [h1]
    exact isWhitespace_eq_false_of_big (by omega)
  · have h2 : Char.toLower c = c := toLower_of_not_upper hup
    by_cases hsp : c = ' '
    · subst hsp
      simp [Char.isWhitespace] at h
    · simp [canonChar, h2, replaceSpace, hsp, h]

theorem stripChars_getLast?_not_ws {l : List Char} {w : Char}
    (h : (stripChars l).getLast? = some w) : w.isWhitespace = false := by
  unfold stripChars at h
  rw [List.getLast?_reverse] at h
  have h2 := List.head?_dropWhile_not Char.isWhitespace
    (l.dropWhile Char.isWhitespace).reverse
  rw [h] at h2
  exact h2

theorem stripChars_head?_not_ws {l : List Char} {w : Char}
    (h : (stripChars l).head? = some w) : w.isWhitespace = false := by
  unfold stripChars at h
  rw [List.head?_reverse] at h
  obtain ⟨t, ht⟩ := List.dropWhile_suffix (p := Char.isWhitespace)
    (l := (l.dropWhile Char.isWhitespace).reverse)
  have hlast : (l.dropWhile Char.isWhitespace).reverse.getLast? = some w := by
    rw [← ht, List.getLast?_append, h]
    rfl
  rw [List.getLast?_reverse] at hlast
  have h2 := List.head?_dropWhile_not Char.isWhitespace l
  rw [hlast] at h2
  exact h2

theorem stripChars_eq_self {m : List Char}
    (h1 : ∀ w, m.head? = some w → w.isWhitespace = false)
    (h2 : ∀ w, m.getLast? = some w → w.isWhitespace = false) :
    stripChars m = m := by
  have hd : m.dropWhile Char.isWhitespace = m := by
    cases m with
    | nil => rfl
    | cons a as =>
      rw [List.dropWhile_cons_of_neg]
      rw [h1 a rfl]
      simp
  unfold stripChars
  rw [hd]
  have hr : m.reverse.dropWhile Char.isWhitespace = m.reverse := by
    cases hm : m.reverse with
    | nil => rfl
    | cons a as =>
      rw [List.dropWhile_cons_of_neg]
      have hha : m.reverse.head? = some a := by
        rw [hm]
        rfl
      rw [List.head?_reverse] at hha
      rw [h2 a hha]
      simp
  rw [hr, List.reverse_reverse]

theorem canonChars_eq_map (l : List Char) :
    canonChars l = (stripChars l).map canonChar := by
  unfold canonChars
  rw [List.map_map]
  rfl

theorem canonChars_idem (l : List Char) : canonChars (canonChars l) = canonChars l := by
  rw [canonChars_eq_map, canonChars_eq_map]
  have hstrip : stripChars ((stripChars l).map canonChar) = (stripChars l).map canonChar := by
    apply stripChars_eq_self
    · intro w hw
      rw [List.head?_map] at hw
      rcases hh : (stripChars l).head? with _ | ⟨w'⟩
      · rw [hh] at hw
        simp at hw
      · rw [hh] at hw
        simp at hw
        rw [← hw]
        exact canonChar_not_ws (stripChars_head?_not_ws hh)
    · intro w hw
      rw [List.getLast?_map] at hw
      rcases hh : (stripChars l).getLast? with _ | ⟨w'⟩
      · rw [hh] at hw
        simp at hw
      · rw [hh] at hw
        simp at hw
        rw [← hw]
        exact canonChar_not_ws (stripChars_getLast?_not_ws hh)
  rw [hstrip, List.map_map]
  apply List.map_congr_left
  intro a _
  exact canonChar_idem a

theorem minQ_eq_none {l : List ℚ} : minQ l = none ↔ l = [] := by
  cases l with
  | nil => simp [minQ]
  | cons q qs =>
    simp only [minQ]
    cases minQ qs <;> simp

theorem maxQ_eq_none {l : List ℚ} : maxQ l = none ↔ l = [] := by
  cases l with
  | nil => simp [maxQ]
  | cons q qs =>
    simp only [maxQ]
    cases maxQ qs <;> simp

theorem minQ_le {l : List ℚ} {m : ℚ} (h : minQ l = some m) :
    ∀ x ∈ l, m ≤ x := by
  induction l generalizing m with
  | nil => simp [minQ] at h
  | cons q qs ih =>
    intro x hx
    simp only [minQ] at h
    rcases hqs : minQ qs with _ | ⟨m'⟩
    · rw [hqs] at h
      simp at h
      rcases List.mem_cons.mp hx with hx1 | hx2
      · rw [← h, hx1]
      · rw [minQ_eq_none.mp hqs] at hx2
        simp at hx2
    · rw [hqs] at h
      simp at h
      rcases List.mem_cons.mp hx with hx1 | hx2
      · rw [← h, hx1]
        exact min_le_left _ _
      · exact le_trans (h ▸ min_le_right q m') (ih hqs x hx2)

theorem le_maxQ {l : List ℚ} {m : ℚ} (h : maxQ l = some m) :
    ∀ x ∈ l, x ≤ m := by
  induction l generalizing m with
  | nil => simp [maxQ] at h
  | cons q qs ih =>
    intro x hx
    simp only [maxQ] at h
    rcases hqs : maxQ qs with _ | ⟨m'⟩
    · rw [hqs] at h
      simp at h
      rcases List.mem_cons.mp hx with hx1 | hx2
      · rw [← h, hx1]
      · rw [maxQ_eq_none.mp hqs] at hx2
        simp at hx2
    · rw [hqs] at h
      simp at h
      rcases List.mem_cons.mp hx with hx1 | hx2
      · rw [hx1, ← h]
        exact le_max_left _ _
      · exact le_trans (ih hqs x hx2) (h ▸ le_max_right q m')

theorem exists_minQ {l : List ℚ} (h : l ≠ []) : ∃ m, minQ l = some m := by
  cases l with
  | nil => exact absurd rfl h
  | cons q qs =>
    simp only [minQ]
    cases minQ qs <;> simp

theorem exists_maxQ {l : List ℚ} (h : l ≠ []) : ∃ m, maxQ l = some m := by
  cases l with
  | nil => exact absurd rfl h
  | cons q qs =>
    simp only [maxQ]
    cases maxQ qs <;> simp

theorem filterMap_filter_isSome {α β : Type} (f : α → Option β) (l : List α) :
    (l.filter (fun a => (f a).isSome)).filterMap f = l.filterMap f := by
  induction l with
  | nil => rfl
  | cons a as ih =>
    cases hfa : f a with
    | none => simp [List.filter_cons, hfa, List.filterMap_cons, ih]
    | some b => simp [List.filter_cons, hfa, List.filterMap_cons, ih]

theorem filter_filter_of_imp {α : Type} (p q : α → Bool) (l : List α)
    (h : ∀ a, q a = true → p a = true) :
    (l.filter p).filter q = l.filter q := by
  rw [List.filter_filter]
  apply List.filter_congr
  intro a _
  cases hq : q a
  · simp
  · simp [h a hq]

theorem length_filterMap_id {α : Type} (l : List (Option α)) :
    (l.filterMap id).length = l.countP (fun x => x.isSome) := by
  induction l with
  | nil => rfl
  | cons a as ih =>
    cases a <;> simp [List.filterMap_cons, List.countP_cons, ih]

/-!
Claim theorems.
-/

/-- Claim C1: for the table with rows `[(g="a",v=1),(g="a",v=3),(g="b",v=5)]`,
grouping by `g` and aggregating `v` yields `{a:4, b:5}` for `sum`,
`{a:2, b:1}` for `count` and `{a:3, b:5}` for `max`; in general `count`
counts the non-null entries of a group and every aggregation function
ignores null cells. -/
theorem claim1_aggregate_correctness :
    groupbyAgg aggExample "g" "v" AggFunc.sum =
      { colNames := ["g", "v"], colNumeric := [false, true]
      , rows := [[some (Value.text "a"), some (Value.num 4)],
                 [some (Value.text "b"), some (Value.num 5)]] } ∧
    groupbyAgg aggExample "g" "v" AggFunc.count =
      { colNames := ["g", "v"], colNumeric := [false, true]
      , rows := [[some (Value.text "a"), some (Value.num 2)],
                 [some (Value.text "b"), some (Value.num 1)]] } ∧
    groupbyAgg aggExample "g" "v" AggFunc.max =
      { colNames := ["g", "v"], colNumeric := [false, true]
      , rows := [[some (Value.text "a"), some (Value.num 3)],
                 [some (Value.text "b"), some (Value.num 5)]] } ∧
    (∀ cells, aggregate cells AggFunc.count =
      some (Value.num ((cells.countP (fun x => x.isSome) : Nat) : ℚ))) ∧
    (∀ cells f, aggregate (none :: cells) f = aggregate cells f) := by
  refine ⟨?_, ?_, ?_, ?_, ?_⟩
  · simp [groupbyAgg, groupKeys, distinctFirstSeen, distinctAux, getCol, colIdx, cellAt,
      groupCells, aggregate, numsOf, toNum, sumQ, isNumericDtype, aggExample]
    norm_num
  · simp [groupbyAgg, groupKeys, distinctFirstSeen, distinctAux, getCol, colIdx, cellAt,
      groupCells, aggregate, numsOf, toNum, sumQ, isNumericDtype, aggExample]
  · simp [groupbyAgg, groupKeys, distinctFirstSeen, distinctAux, getCol, colIdx, cellAt,
      groupCells, aggregate, numsOf, toNum, sumQ, maxQ, isNumericDtype, aggExample]
  · intro cells
    simp [aggregate, length_filterMap_id]
  · intro cells f
    cases f <;> simp [aggregate, numsOf, List.filterMap_cons, toNum]

/-- Claim C2 counterexample: on a table whose group-by column contains a
null entry, the grouped output contains only the non-null group `"a"`;
the null entry does not form its own group, contrary to the claim. -/
theorem claim2_counterexample :
    none ∈ getCol nullKeyTable "g" ∧
    getCol (groupbyAgg nullKeyTable "g" "v" AggFunc.max) "g" =
      [some (Value.text "a")] := by
  decide

/-- Claim C2 (amended): every group key of the aggregation output is
non-null, and rows whose group-by value is null contribute nothing:
removing them first leaves the grouped output unchanged. -/
theorem claim2_null_groups_dropped (t : Table) (g a : String) (f : AggFunc) :
    (groupbyAgg t g a f).rows.all (fun r => (cellAt r 0).isSome) = true ∧
    groupbyAgg (dropNullKeyRows t g) g a f = groupbyAgg t g a f := by
  constructor
  · rw [List.all_eq_true]
    intro r hr
    simp only [groupbyAgg, List.mem_map] at hr
    obtain ⟨k, _, hk⟩ := hr
    rw [← hk]
    rfl
  · have hkeys : groupKeys (dropNullKeyRows t g) g = groupKeys t g := by
      unfold groupKeys getCol dropNullKeyRows
      congr 1
      rw [List.filterMap_map, List.filterMap_map]
      exact filterMap_filter_isSome _ _
    have hcells : ∀ k, groupCells (dropNullKeyRows t g) g a k = groupCells t g a k := by
      intro k
      unfold groupCells dropNullKeyRows
      congr 1
      apply filter_filter_of_imp
      intro r hq
      have heq : cellAt r (colIdx t g) = some k := by
        simpa using hq
      rw [heq]
      rfl
    have hrows : (groupKeys (dropNullKeyRows t g) g).map
        (fun k => [some k, aggregate (groupCells (dropNullKeyRows t g) g a k) f]) =
        (groupKeys t g).map (fun k => [some k, aggregate (groupCells t g a k) f]) := by
      rw [hkeys]
      apply List.map_congr_left
      intro k _
      rw [hcells k]
    exact congrArg (fun rs => Table.mk [g, a] [isNumericDtype t g, true] rs) hrows

/-- Claim C3 counterexample: a numeric column with a null cell loses
that row under the full-range filter, so the row count shrinks. -/
theorem claim3_counterexample :
    isNumericDtype nullValTable "v" = true ∧
    (applyFilter nullValTable
      (FilterSpec.range "v" (colMin nullValTable "v") (colMax nullValTable "v"))).rowCount ≠
    nullValTable.rowCount := by
  decide

/-- Claim C3 (amended): the full-range numeric filter preserves the row
count provided every cell of the filter column is a non-null numeric
value. -/
theorem claim3_full_range_preserves_rowcount (t : Table) (c : String)
    (h : ∀ cell ∈ getCol t c, ∃ q, cell = some (Value.num q)) :
    (applyFilter t (FilterSpec.range c (colMin t c) (colMax t c))).rowCount =
      t.rowCount := by
  simp only [applyFilter, Table.rowCount]
  rw [List.filter_eq_self.mpr]
  intro r hr
  have hmem : cellAt r (colIdx t c) ∈ getCol t c := List.mem_map_of_mem _ hr
  obtain ⟨q, hq⟩ := h _ hmem
  have hqmem : q ∈ numsOf (getCol t c) := by
    apply List.mem_filterMap.mpr
    exact ⟨_, hmem, by rw [hq]; rfl⟩
  have hne : numsOf (getCol t c) ≠ [] := List.ne_nil_of_mem hqmem
  obtain ⟨m, hm⟩ := exists_minQ hne
  obtain ⟨M, hM⟩ := exists_maxQ hne
  show between (cellAt r (colIdx t c)) (colMin t c) (colMax t c) = true
  rw [hq]
  unfold colMin colMax
  rw [hm, hM]
  simp [between, toNum]
  exact ⟨minQ_le hm q hqmem, le_maxQ hM q hqmem⟩

/-- Claim C3 witness: the amended theorem applied to a concrete
null-free numeric column. -/
theorem claim3_witness :
    (∀ cell ∈ getCol noNullTable "v", ∃ q, cell = some (Value.num q)) ∧
    (applyFilter noNullTable
      (FilterSpec.range "v" (colMin noNullTable "v") (colMax noNullTable "v"))).rowCount =
      noNullTable.rowCount := by
  have hcol : getCol noNullTable "v" = [some (Value.num 2), some (Value.num 7)] := by
    decide
  have hh : ∀ cell ∈ getCol noNullTable "v", ∃ q, cell = some (Value.num q) := by
    intro cell hc
    rw [hcol] at hc
    rcases List.mem_cons.mp hc with h1 | h2
    · exact ⟨2, h1⟩
    · exact ⟨7, by simpa using h2⟩
  exact ⟨hh, claim3_full_range_preserves_rowcount noNullTable "v" hh⟩

/-- Claim C4: on a column that is entirely null, the observed minimum
is undefined (NaN, modelled `none`) and the numeric range filter with
the default bounds yields zero rows; no error is possible since the
embedding is total. -/
theorem claim4_null_only_filter_empty (t : Table) (c : String)
    (h : ∀ cell ∈ getCol t c, cell = none) :
    colMin t c = none ∧
    (applyFilter t (FilterSpec.range c (colMin t c) (colMax t c))).rowCount = 0 := by
  have hnums : numsOf (getCol t c) = [] := by
    apply List.filterMap_eq_nil_iff.mpr
    intro cell hcell
    rw [h cell hcell]
    rfl
  have hmin : colMin t c = none := by
    unfold colMin
    rw [hnums]
    rfl
  refine ⟨hmin, ?_⟩
  simp only [applyFilter, Table.rowCount]
  rw [List.length_eq_zero]
  apply List.filter_eq_nil_iff.mpr
  intro r _
  show ¬ between (cellAt r (colIdx t c)) (colMin t c) (colMax t c) = true
  rw [hmin]
  simp [between]

/-- Claim C4 witness: the theorem applied to a concrete all-null
column. -/
theorem claim4_witness :
    (∀ cell ∈ getCol allNullTable "v", cell = none) ∧
    (colMin allNullTable "v" = none ∧
      (applyFilter allNullTable
        (FilterSpec.range "v" (colMin allNullTable "v") (colMax allNullTable "v"))).rowCount = 0) :=
  ⟨by decide, claim4_null_only_filter_empty allNullTable "v" (by decide)⟩

/-- Claim C5 counterexample: the extension `txt`, which is none of the
five accepted ones, is still dispatched to the delimited-text reader by
the final `else` branch, and ingest succeeds when that reader succeeds;
no failure occurs, contrary to the claim. -/
theorem claim5_counterexample :
    fileTypeOf "data.txt" = "txt" ∧
    "txt" ∉ ["csv", "xlsx", "xls", "json", "parquet"] ∧
    dispatch "txt" = Reader.delimitedText ∧
    ingest (fun _ _ => Except.ok emptyTable) "data.txt" [] =
      Except.ok (canonTable emptyTable) :=
  ⟨by decide, by decide, by decide, rfl⟩

/-- Claim C5 (amended): dispatch is pure in the declared extension,
sending `xlsx`/`xls` to the spreadsheet reader, `json` to the
structured-record reader, `parquet` to the columnar-binary reader, and
every other extension — `csv` included — to the delimited-text reader;
a reader's error propagates through ingest unchanged. -/
theorem claim5_dispatch_amended :
    dispatch "xlsx" = Reader.spreadsheet ∧
    dispatch "xls" = Reader.spreadsheet ∧
    dispatch "json" = Reader.structuredRecord ∧
    dispatch "parquet" = Reader.columnarBinary ∧
    (∀ ext, ext ≠ "xlsx" → ext ≠ "xls" → ext ≠ "json" → ext ≠ "parquet" →
      dispatch ext = Reader.delimitedText) ∧
    (∀ readers fileName bytes e,
      readers (dispatch (fileTypeOf fileName)) bytes = Except.error e →
      ingest readers fileName bytes = Except.error e) := by
  refine ⟨by decide, by decide, by decide, by decide, ?_, ?_⟩
  · intro ext h1 h2 h3 h4
    simp [dispatch, h1, h2, h3, h4]
  · intro readers fileName bytes e h
    simp [ingest, h]

/-- Claim C5 witness: the amended theorem applied to the extension
`txt` and to a concrete failing reader. -/
theorem claim5_witness :
    dispatch "txt" = Reader.delimitedText ∧
    ingest (fun _ _ => Except.error ⟨"boom"⟩) "f.csv" [] =
      Except.error (FormatError.mk "boom") :=
  ⟨claim5_dispatch_amended.2.2.2.2.1 "txt" (by decide) (by decide) (by decide) (by decide),
   claim5_dispatch_amended.2.2.2.2.2 (fun _ _ => Except.error ⟨"boom"⟩) "f.csv" [] ⟨"boom"⟩ rfl⟩

/-- Claim C6: retrieving a relation right after persisting it under the
same name returns a table with identical column names, row count and
cell values. -/
theorem claim6_persist_retrieve_roundtrip (s : Store) (n : String) (t : Table) :
    ∃ t', readSql (toSql s n t) n = some t' ∧ t'.colNames = t.colNames ∧
      t'.rowCount = t.rowCount ∧ t'.rows = t.rows := by
  refine ⟨t, ?_, rfl, rfl, rfl⟩
  simp [readSql, toSql, List.find?]

/-- Claim C7: column-name canonicalization is idempotent — applying it
twice equals applying it once, and it fixes every already-canonical
name. -/
theorem claim7_canonicalize_idempotent :
    (∀ s, canonicalize (canonicalize s) = canonicalize s) ∧
    (∀ s, (∃ s₀, s = canonicalize s₀) → canonicalize s = s) := by
  have hidem : ∀ s, canonicalize (canonicalize s) = canonicalize s := by
    intro s
    unfold canonicalize
    have hdata : (String.mk (canonChars s.data)).data = canonChars s.data := rfl
    rw [hdata, canonChars_idem]
  refine ⟨hidem, ?_⟩
  rintro s ⟨s₀, rfl⟩
  exact hidem s₀

/-- Claim C7 witness: the theorem applied to the canonical name
`my_col`, exhibited as the canonicalization of `" My Col "`. -/
theorem claim7_witness : canonicalize "my_col" = "my_col" :=
  claim7_canonicalize_idempotent.2 "my_col" ⟨" My Col ", by decide⟩

/-- Claim C8: applying a filter to its own output with the same spec —
numeric range or categorical value set — returns that output
unchanged. -/
theorem claim8_filter_idempotent (t : Table) (fs : FilterSpec) :
    applyFilter (applyFilter t fs) fs = applyFilter t fs := by
  have h : rowPasses (applyFilter t fs) fs = rowPasses t fs := rfl
  simp only [applyFilter] at h ⊢
  rw [h, List.filter_filter]
  simp

/-- Claim C9: when the aggregate target column is not numeric the
pipeline produces no grouped output and its filtered output is exactly
the one produced with no aggregate spec. -/
theorem claim9_non_numeric_agg_noop (t : Table) (fs : FilterSpec) (a : AggSpec)
    (h : isNumericDtype t a.aggCol = false) :
    pipeline t fs (some a) = (applyFilter t fs, none) ∧
    (pipeline t fs (some a)).1 = (pipeline t fs none).1 := by
  constructor
  · simp [pipeline, h]
  · simp [pipeline, h]

/-- Claim C9 witness: the theorem applied to a concrete table with a
non-numeric aggregate target. -/
theorem claim9_witness :
    pipeline textTable (FilterSpec.cat "g" []) (some (AggSpec.mk "g" "g" AggFunc.sum)) =
      (applyFilter textTable (FilterSpec.cat "g" []), none) ∧
    (pipeline textTable (FilterSpec.cat "g" []) (some (AggSpec.mk "g" "g" AggFunc.sum))).1 =
      (pipeline textTable (FilterSpec.cat "g" []) none).1 :=
  claim9_non_numeric_agg_noop textTable (FilterSpec.cat "g" [])
    (AggSpec.mk "g" "g" AggFunc.sum) (by decide)

/-- Claim C10: the histogram input and the correlation input are
computed from the retrieved table alone, so any two filter specs yield
identical histogram and correlation inputs. -/
theorem claim10_histogram_corr_filter_independent (t : Table)
    (fs1 fs2 : FilterSpec) (histCol : String) :
    (present t fs1 histCol).histogramInput = (present t fs2 histCol).histogramInput ∧
    (present t fs1 histCol).corrInput = (present t fs2 histCol).corrInput :=
  ⟨rfl, rfl⟩

end UniversalDesktop
